import Mathlib

/-!
# cert-manager-webhook-websupport: the DNS client and the challenge solver

A shallow embedding of `main.go` (`splitDomain`, `Present`, `CleanUp`) and of
`websupport/client.go` (`secretSignature`, `NewRequest`, `Request`,
`GetDNSRecords`, `FindDNSRecord`, `CreateRecord`, `DeleteRecord`,
`WebsupportError.Error`).

Conventions of the embedding:

* a Go `string` is a Lean `String`, a Go `int` is an `Int`, a `[]byte` is a `List Nat`;
* a Go call that can panic returns an `Outcome`;
* a Go `(value, error)` result of which exactly one is set is an `Except GoError α`; `Request`,
  which can hand back a response together with an error, returns a pair of `Option`s
  (`none` is `nil`); a function returning only `error` returns `Option GoError`;
* the functions that talk to the provider return a `Run`: the HTTP requests handed to
  `httpClient.Do`, in order, and the outcome;
* what the program reads from outside (the clock, the HTTP round trip) and the
  standard-library calls whose code is not part of the repository (`net/url`,
  `net/http.NewRequest`, `encoding/json`) are the fields of `Env`; the general
  theorems hold for every `Env`, and `stdEnv` is a concrete one used to evaluate examples;
* `crypto/sha1`, `crypto/hmac`, `strings.Split/Join/TrimSuffix`, `errors.As`, the `%d` and `%x`
  verbs of `fmt` and `time.Format(time.RFC3339)` are written out.
-/

namespace Websupport

/-! ## The Go runtime: panics, strings, formatting -/

/-- Result of running Go code that may panic: a returned value or the panic message. -/
inductive Outcome (α : Type) where
  | ret (a : α)
  | panicked (msg : String)
  deriving DecidableEq, Repr

/-- Go `strings.TrimSuffix(s, suffix)`. -/
def stringsTrimSuffix (s suffix : String) : String :=
  if suffix.data.isSuffixOf s.data then ⟨s.data.take (s.data.length - suffix.data.length)⟩ else s

/-- Go `strings.Split(s, sep)` for a one-character separator, on character lists:
the pieces between the separators, `[[]]` for the empty string. -/
def splitChars (sep : Char) : List Char → List (List Char)
  | [] => [[]]
  | c :: cs =>
    if c = sep then [] :: splitChars sep cs
    else
      match splitChars sep cs with
      | [] => [[c]]
      | p :: ps => (c :: p) :: ps

/-- Go `strings.Split(s, sep)` with `sep` a one-character string. -/
def stringsSplit (s : String) (sep : Char) : List String :=
  (splitChars sep s.data).map String.mk

/-- Go `strings.Join(elems, sep)`. -/
def stringsJoin : List String → String → String
  | [], _ => ""
  | [a], _ => a
  | a :: b :: rest, sep => a ++ sep ++ stringsJoin (b :: rest) sep

/-- Joining character lists with a separator character between them. -/
def joinChars (sep : Char) : List (List Char) → List Char
  | [] => []
  | [a] => a
  | a :: b :: rest => a ++ sep :: joinChars sep (b :: rest)

/-- The `%d` verb of `fmt` on an integer: decimal digits, a leading `-` when negative. -/
def sprintD : Int → String
  | .ofNat n => Nat.repr n
  | .negSucc n => "-" ++ Nat.repr (n + 1)

/-- Reads a decimal numeral back: the inverse of `Nat.repr`, used to show `%d` injective. -/
def readDecimal (cs : List Char) : Nat :=
  cs.foldl (fun a c => 10 * a + (c.toNat - 48)) 0

/-- One lowercase hexadecimal digit. -/
def hexDigit (n : Nat) : Char := "0123456789abcdef".data.getD n '0'

/-- The `%x` verb of `fmt` on a byte slice: two lowercase hexadecimal digits per byte. -/
def sprintX (bs : List Nat) : String :=
  ⟨bs.flatMap fun b => [hexDigit (b / 16 % 16), hexDigit (b % 16)]⟩

/-- UTF-8 encoding of one character. -/
def utf8Char (c : Char) : List Nat :=
  let v := c.toNat
  if v < 0x80 then [v]
  else if v < 0x800 then [0xC0 + v / 64, 0x80 + v % 64]
  else if v < 0x10000 then [0xE0 + v / 4096, 0x80 + v / 64 % 64, 0x80 + v % 64]
  else [0xF0 + v / 262144, 0x80 + v / 4096 % 64, 0x80 + v / 64 % 64, 0x80 + v % 64]

/-- Go `[]byte(s)`: the bytes of a string. -/
def utf8Bytes (s : String) : List Nat := s.data.flatMap utf8Char

/-! ## crypto/sha1 and crypto/hmac (FIPS 180-4, RFC 2104), on bytes as naturals -/

/-- Rotation of a 32-bit word to the left. -/
def rotl32 (x n : Nat) : Nat := ((x <<< n) ||| (x >>> (32 - n))) % 2 ^ 32

/-- Big-endian bytes of a 32-bit word. -/
def be32 (w : Nat) : List Nat := [w / 2 ^ 24 % 256, w / 2 ^ 16 % 256, w / 2 ^ 8 % 256, w % 256]

/-- Big-endian bytes of a 64-bit word. -/
def be64 (w : Nat) : List Nat := be32 (w / 2 ^ 32 % 2 ^ 32) ++ be32 (w % 2 ^ 32)

/-- SHA-1 padding: a `0x80` byte, zeros up to 56 modulo 64, the bit length on 64 bits. -/
def sha1Pad (msg : List Nat) : List Nat :=
  msg ++ 0x80 :: List.replicate ((119 - msg.length % 64) % 64) 0 ++ be64 (8 * msg.length)

/-- Groups bytes into big-endian 32-bit words. -/
def wordsOf : List Nat → List Nat
  | a :: b :: c :: d :: rest => (a * 2 ^ 24 + b * 2 ^ 16 + c * 2 ^ 8 + d) :: wordsOf rest
  | _ => []

/-- Extends the message schedule by `n` words; `w` holds the words so far, newest first. -/
def sha1Schedule : Nat → List Nat → List Nat
  | 0, w => w
  | n + 1, w =>
    sha1Schedule n (rotl32 (w.getD 2 0 ^^^ w.getD 7 0 ^^^ w.getD 13 0 ^^^ w.getD 15 0) 1 :: w)

/-- The five working words of SHA-1. -/
structure Sha1State where
  a : Nat
  b : Nat
  c : Nat
  d : Nat
  e : Nat

/-- Round function of SHA-1 at round `t`. -/
def sha1F (t b c d : Nat) : Nat :=
  if t < 20 then (b &&& c) ||| ((b ^^^ (2 ^ 32 - 1)) &&& d)
  else if t < 40 then b ^^^ c ^^^ d
  else if t < 60 then (b &&& c) ||| (b &&& d) ||| (c &&& d)
  else b ^^^ c ^^^ d

/-- Round constant of SHA-1 at round `t`. -/
def sha1K (t : Nat) : Nat :=
  if t < 20 then 0x5A827999 else if t < 40 then 0x6ED9EBA1
  else if t < 60 then 0x8F1BBCDC else 0xCA62C1D6

/-- The rounds of SHA-1 over the schedule words, from round `t` on. -/
def sha1Rounds : List Nat → Nat → Sha1State → Sha1State
  | [], _, s => s
  | w :: ws, t, s =>
    sha1Rounds ws (t + 1)
      { a := (rotl32 s.a 5 + sha1F t s.b s.c s.d + s.e + sha1K t + w) % 2 ^ 32,
        b := s.a, c := rotl32 s.b 30, d := s.c, e := s.d }

/-- Compression of one 64-byte block. -/
def sha1Block (h : Sha1State) (block : List Nat) : Sha1State :=
  let w := (sha1Schedule 64 (wordsOf block).reverse).reverse
  let s := sha1Rounds w 0 h
  { a := (h.a + s.a) % 2 ^ 32, b := (h.b + s.b) % 2 ^ 32, c := (h.c + s.c) % 2 ^ 32,
    d := (h.d + s.d) % 2 ^ 32, e := (h.e + s.e) % 2 ^ 32 }

/-- Compression of `n` consecutive blocks. -/
def sha1Blocks : Nat → Sha1State → List Nat → Sha1State
  | 0, h, _ => h
  | n + 1, h, bytes => sha1Blocks n (sha1Block h (bytes.take 64)) (bytes.drop 64)

/-- Initial hash value of SHA-1. -/
def sha1Init : Sha1State :=
  { a := 0x67452301, b := 0xEFCDAB89, c := 0x98BADCFE, d := 0x10325476, e := 0xC3D2E1F0 }

/-- Go `sha1.Sum`: the 20-byte digest of a message. -/
def sha1 (msg : List Nat) : List Nat :=
  let p := sha1Pad msg
  let h := sha1Blocks (p.length / 64) sha1Init p
  be32 h.a ++ be32 h.b ++ be32 h.c ++ be32 h.d ++ be32 h.e

/-- HMAC key block: a key longer than the block is hashed, then zero-padded to 64 bytes. -/
def hmacKey (key : List Nat) : List Nat :=
  let k := if key.length > 64 then sha1 key else key
  k ++ List.replicate (64 - k.length) 0

/-- Go `hmac.New(sha1.New, key)`, `Write(msg)`, `Sum(nil)`. -/
def hmacSha1 (key msg : List Nat) : List Nat :=
  let k := hmacKey key
  sha1 (k.map (· ^^^ 0x5c) ++ sha1 (k.map (· ^^^ 0x36) ++ msg))

/-! ## time: a clock reading and its RFC3339 rendering -/

/-- A `time.Time` as returned by `time.Now()`: the Unix second, the nanoseconds within it,
and the offset of the local zone in seconds east of UTC. -/
structure Time where
  unix : Int
  nsec : Nat
  zoneOffset : Int
  deriving DecidableEq, Repr

/-- Go `t.Unix()`. -/
def Time.Unix (t : Time) : Int := t.unix

/-- Decimal rendering of a natural on at least `width` digits, zero-padded. -/
def padNat (width n : Nat) : String :=
  let s := Nat.repr n
  ⟨List.replicate (width - s.length) '0'⟩ ++ s

/-- Civil date `(year, month, day)` of a day count since 1970-01-01 (proleptic Gregorian). -/
def civilFromDays (days : Int) : Int × Nat × Nat :=
  let z := days + 719468
  let era := z / 146097
  let doe := (z - era * 146097).toNat
  let yoe := (doe - doe / 1460 + doe / 36524 - doe / 146096) / 365
  let doy := doe - (365 * yoe + yoe / 4 - yoe / 100)
  let mp := (5 * doy + 2) / 153
  let d := doy - (153 * mp + 2) / 5 + 1
  let m := if mp < 10 then mp + 3 else mp - 9
  let y := (yoe : Int) + era * 400 + (if m ≤ 2 then 1 else 0)
  (y, m, d)

/-- The zone suffix of the RFC3339 layout `Z07:00`: `Z` for UTC, else a signed `hh:mm`. -/
def zoneSuffix (offset : Int) : String :=
  if offset = 0 then "Z"
  else
    let a := offset.natAbs
    (if offset < 0 then "-" else "+") ++ padNat 2 (a / 3600) ++ ":" ++ padNat 2 (a % 3600 / 60)

/-- Go `t.Format(time.RFC3339)`, layout `2006-01-02T15:04:05Z07:00`. -/
def Time.FormatRFC3339 (t : Time) : String :=
  let abs := t.unix + t.zoneOffset
  let days := abs / 86400
  let sod := (abs % 86400).toNat
  let (y, m, d) := civilFromDays days
  padNat 4 y.toNat ++ "-" ++ padNat 2 m ++ "-" ++ padNat 2 d ++ "T" ++
    padNat 2 (sod / 3600) ++ ":" ++ padNat 2 (sod % 3600 / 60) ++ ":" ++ padNat 2 (sod % 60) ++
    zoneSuffix t.zoneOffset

/-! ## websupport/client.go: data model -/

/-- Go `DnsRecord`; the field `Type` is spelled `Type_`, `Type` being a Lean keyword. -/
structure DnsRecord where
  Type_ : String
  Name : String
  Content : String
  Ttl : Int
  Id : Int
  deriving DecidableEq, Repr

/-- Go `Domains`. -/
structure Domains where
  Items : List DnsRecord
  deriving DecidableEq, Repr

/-- Go `Config`. -/
structure Config where
  ApiKey : String
  ApiSecret : String
  deriving DecidableEq, Repr

/-- Go `HttpErrorContent`. -/
structure HttpErrorContent where
  Content : List String
  deriving DecidableEq, Repr

/-- Go `WebsupportError`. -/
structure WebsupportError where
  Item : DnsRecord
  Status : String
  Errors : HttpErrorContent
  deriving DecidableEq, Repr

/-- The zero value of `WebsupportError`, what `var wsError WebsupportError` declares. -/
def WebsupportError.zero : WebsupportError :=
  { Item := { Type_ := "", Name := "", Content := "", Ttl := 0, Id := 0 },
    Status := "", Errors := { Content := [] } }

/-- A Go `error` value: a `*WebsupportError`, or an error of another dynamic type
(a `*url.Error`, an error of `encoding/json`, of the HTTP transport) with its text. -/
inductive GoError where
  | websupport (e : WebsupportError)
  | other (text : String)
  deriving DecidableEq, Repr

/-- Go `(e *WebsupportError) Error()`: indexing `e.Errors.Content[0]` panics on an empty slice. -/
def WebsupportError.Error (e : WebsupportError) : Outcome String :=
  match e.Errors.Content with
  | [] => .panicked "runtime error: index out of range [0] with length 0"
  | m :: _ => .ret m

/-- An `*http.Request` as `NewRequest` builds it: the three headers it sets and the
user and password given to `SetBasicAuth`. -/
structure HttpRequest where
  Method : String
  URL : String
  Body : String
  ContentType : String
  Accept : String
  Date : String
  AuthUser : String
  AuthPassword : String
  deriving DecidableEq, Repr

/-- An `*http.Response`: the numeric status code, the status line and the body. -/
structure HttpResponse where
  StatusCode : Int
  Status : String
  Body : String
  deriving DecidableEq, Repr

/-- What the program takes from outside, and the library calls it relies on. -/
structure Env where
  /-- `url.Parse(u)` then `.Path`, or the error of `url.Parse`. -/
  urlPath : String → Except GoError String
  /-- The error of `http.NewRequest(method, url, body)`; `none` when the request is built. -/
  httpNewRequest : String → String → Option GoError
  /-- The `n`-th reading of `time.Now()`. -/
  now : Nat → Time
  /-- The round trip `httpClient.Do(req)`: the response and the error it returns. -/
  Do : HttpRequest → Option HttpResponse × Option GoError
  /-- `json.Marshal(dnsRecord)`. -/
  jsonMarshal : DnsRecord → Except GoError String
  /-- The value left in a zero `WebsupportError` by `json.NewDecoder(body).Decode(&wsError)`,
  whose error `Request` ignores. -/
  jsonDecodeError : String → WebsupportError
  /-- The result of `json.NewDecoder(body).Decode(&domains)`. -/
  jsonDecodeDomains : String → Except GoError Domains

/-- The requests handed to `httpClient.Do`, in order, and the outcome of the call. -/
structure Run (α : Type) where
  sent : List HttpRequest
  out : Outcome α

/-! ## websupport/client.go: operations -/

/-- The string `secretSignature` feeds to HMAC-SHA1: `fmt.Sprintf("%s %s %d", ...)`. -/
def signedMessage (method path : String) (unix : Int) : String :=
  method ++ " " ++ path ++ " " ++ sprintD unix

/-- Go `secretSignature`; `now` is the reading of `time.Now()` it takes. -/
def secretSignature (E : Env) (now : Time) (method fullUrl secret : String) :
    Except GoError String :=
  match E.urlPath fullUrl with
  | .error err => .error err
  | .ok path =>
    .ok (sprintX (hmacSha1 (utf8Bytes secret) (utf8Bytes (signedMessage method path now.Unix))))

/-- Go `(client *Client) BaseUrl`. -/
def BaseUrl : String := "https://rest.websupport.sk/v1/user/self/zone/"

/-- Go `(client *Client) NewRequest`. It reads the clock twice: reading `clk` for the `Date`
header, then reading `clk + 1` inside `secretSignature`. -/
def NewRequest (E : Env) (config : Config) (clk : Nat) (method url data : String) :
    Except GoError HttpRequest :=
  match E.httpNewRequest method url with
  | some err => .error err
  | none =>
    let date := (E.now clk).FormatRFC3339
    match secretSignature E (E.now (clk + 1)) method url config.ApiSecret with
    | .error err => .error err
    | .ok signature =>
      .ok { Method := method, URL := url, Body := data,
            ContentType := "application/json", Accept := "application/json", Date := date,
            AuthUser := config.ApiKey, AuthPassword := signature }

/-- Go `(client *Client) Request`. `resp.StatusCode` is read before `err` is looked at, which
dereferences a nil `resp` when the round trip returned none. -/
def Request (E : Env) (config : Config) (clk : Nat) (method url data : String) :
    Run (Option HttpResponse × Option GoError) :=
  match NewRequest E config clk method url data with
  | .error err => ⟨[], .ret (none, some err)⟩
  | .ok req =>
    match E.Do req with
    | (none, _) =>
      ⟨[req], .panicked "runtime error: invalid memory address or nil pointer dereference"⟩
    | (some resp, err) =>
      if resp.StatusCode ≥ 400 then
        let wsError := E.jsonDecodeError resp.Body
        ⟨[req], .ret (none, some (.websupport { wsError with Status := resp.Status }))⟩
      else
        ⟨[req], .ret (some resp, err)⟩

/-- Go `(client *Client) GetDNSRecords`. -/
def GetDNSRecords (E : Env) (config : Config) (clk : Nat) (domainName : String) :
    Run (Except GoError Domains) :=
  let url := BaseUrl ++ domainName ++ "/record"
  let r := Request E config clk "GET" url ""
  match r.out with
  | .panicked msg => ⟨r.sent, .panicked msg⟩
  | .ret (_, some err) => ⟨r.sent, .ret (.error err)⟩
  | .ret (none, none) =>
    ⟨r.sent, .panicked "runtime error: invalid memory address or nil pointer dereference"⟩
  | .ret (some resp, none) => ⟨r.sent, .ret (E.jsonDecodeDomains resp.Body)⟩

/-- The condition of the `if` in the loop of `FindDNSRecord`. -/
def recordMatches (dnsRecord record : DnsRecord) : Bool :=
  record.Name == dnsRecord.Name && record.Type_ == dnsRecord.Type_ &&
    (dnsRecord.Content == "" || record.Content == dnsRecord.Content) &&
    (dnsRecord.Id == 0 || record.Id == dnsRecord.Id) &&
    (dnsRecord.Ttl == 0 || record.Ttl == dnsRecord.Ttl)

/-- The message of the error `FindDNSRecord` builds:
`fmt.Sprintf("no such domain '%v' with key '%s' found", ...)`. -/
def notFoundMessage (dnsRecord : DnsRecord) : String :=
  "no such domain '" ++ dnsRecord.Name ++ "' with key '" ++ dnsRecord.Content ++ "' found"

/-- The `for ... range records.Items` loop of `FindDNSRecord` and the statements after it. -/
def findLoop (dnsRecord : DnsRecord) : List DnsRecord → Except GoError DnsRecord
  | [] =>
    .error (.websupport
      { Item := dnsRecord, Status := "", Errors := { Content := [notFoundMessage dnsRecord] } })
  | record :: rest =>
    if recordMatches dnsRecord record then .ok record else findLoop dnsRecord rest

/-- Go `(client *Client) FindDNSRecord`. -/
def FindDNSRecord (E : Env) (config : Config) (clk : Nat) (domainName : String)
    (dnsRecord : DnsRecord) : Run (Except GoError DnsRecord) :=
  let r := GetDNSRecords E config clk domainName
  match r.out with
  | .panicked msg => ⟨r.sent, .panicked msg⟩
  | .ret (.error err) => ⟨r.sent, .ret (.error err)⟩
  | .ret (.ok records) => ⟨r.sent, .ret (findLoop dnsRecord records.Items)⟩

/-- Go `(client *Client) CreateRecord`. -/
def CreateRecord (E : Env) (config : Config) (clk : Nat) (domainName : String)
    (dnsRecord : DnsRecord) : Run (Option GoError) :=
  let url := BaseUrl ++ domainName ++ "/record"
  match E.jsonMarshal dnsRecord with
  | .error err => ⟨[], .ret (some err)⟩
  | .ok data =>
    let r := Request E config clk "POST" url data
    match r.out with
    | .panicked msg => ⟨r.sent, .panicked msg⟩
    | .ret (_, some err) => ⟨r.sent, .ret (some err)⟩
    | .ret (none, none) =>
      ⟨r.sent, .panicked "runtime error: invalid memory address or nil pointer dereference"⟩
    | .ret (some _, none) => ⟨r.sent, .ret none⟩

/-- The URL of a single record: `fmt.Sprintf("%s%s/record/%d", BaseUrl(), domainName, id)`. -/
def recordUrl (domainName : String) (id : Int) : String :=
  BaseUrl ++ domainName ++ "/record/" ++ sprintD id

/-- Go `(client *Client) DeleteRecord`. The lookup takes clock readings `clk` and `clk + 1`,
the DELETE request the next two. -/
def DeleteRecord (E : Env) (config : Config) (clk : Nat) (domainName : String)
    (dnsRecord : DnsRecord) : Run (Option GoError) :=
  let f := FindDNSRecord E config clk domainName dnsRecord
  match f.out with
  | .panicked msg => ⟨f.sent, .panicked msg⟩
  | .ret (.error err) => ⟨f.sent, .ret (some err)⟩
  | .ret (.ok foundRecord) =>
    let url := recordUrl domainName foundRecord.Id
    let r := Request E config (clk + 2) "DELETE" url ""
    match r.out with
    | .panicked msg => ⟨f.sent ++ r.sent, .panicked msg⟩
    | .ret (_, some err) => ⟨f.sent ++ r.sent, .ret (some err)⟩
    | .ret (none, none) =>
      ⟨f.sent ++ r.sent,
        .panicked "runtime error: invalid memory address or nil pointer dereference"⟩
    | .ret (some _, none) => ⟨f.sent ++ r.sent, .ret none⟩

/-- Go `(client *Client) UpdateRecord`. -/
def UpdateRecord (E : Env) (config : Config) (clk : Nat) (domainName : String)
    (oldDnsRecord newDnsRecord : DnsRecord) : Run (Option GoError) :=
  let f := FindDNSRecord E config clk domainName oldDnsRecord
  match f.out with
  | .panicked msg => ⟨f.sent, .panicked msg⟩
  | .ret (.error err) => ⟨f.sent, .ret (some err)⟩
  | .ret (.ok foundRecord) =>
    match E.jsonMarshal newDnsRecord with
    | .error err => ⟨f.sent, .ret (some err)⟩
    | .ok data =>
      let url := recordUrl domainName foundRecord.Id
      let r := Request E config (clk + 2) "PUT" url data
      match r.out with
      | .panicked msg => ⟨f.sent ++ r.sent, .panicked msg⟩
      | .ret (_, some err) => ⟨f.sent ++ r.sent, .ret (some err)⟩
      | .ret (none, none) =>
        ⟨f.sent ++ r.sent,
          .panicked "runtime error: invalid memory address or nil pointer dereference"⟩
      | .ret (some _, none) => ⟨f.sent ++ r.sent, .ret none⟩

/-! ## errors.As -/

/-- The static type of `*target` in a call `errors.As(err, target)`. -/
inductive AsTarget where
  /-- `WebsupportError`, for a target `&websupport.WebsupportError{}`. -/
  | websupportErrorStruct
  /-- `*WebsupportError`, for a target of type `**WebsupportError`. -/
  | websupportErrorPointer
  deriving DecidableEq, Repr

/-- Whether the type implements `error`. `Error` is declared on the pointer receiver
`*WebsupportError`, so the method set of the struct type `WebsupportError` lacks it. -/
def AsTarget.implementsError : AsTarget → Bool
  | .websupportErrorStruct => false
  | .websupportErrorPointer => true

/-- Go `errors.As(err, target)` for a non-nil `err` and a non-nil pointer `target`. The
package documents: "As panics if target is not a non-nil pointer to either a type that
implements error, or to any interface type." Otherwise it reports whether `err` (no error of
this program wraps another) is assignable to `*target`. -/
def errorsAs (err : GoError) (target : AsTarget) : Outcome Bool :=
  if target.implementsError then
    match err with
    | .websupport _ => .ret true
    | .other _ => .ret false
  else
    .panicked "errors: *target must be interface or implement error"

/-! ## main.go -/

/-- Go `splitDomain` of main.go: the slice expressions `parts[lens-2:]` and `parts[:lens-2]`
panic when `lens < 2`. -/
def splitDomain (domain : String) : Outcome (String × String) :=
  let parts := stringsSplit (stringsTrimSuffix domain ".") '.'
  let lens := parts.length
  if lens < 2 then
    .panicked "runtime error: slice bounds out of range"
  else
    .ret (stringsJoin (parts.drop (lens - 2)) ".", stringsJoin (parts.take (lens - 2)) ".")

/-- Go `(c *webSupportDNSProviderSolver) Present`, from the result `cfg` of `c.loadConfig(ch)`
on; `fqdn` is `ch.ResolvedFQDN` and `key` is `ch.Key`. -/
def Present (E : Env) (cfg : Except GoError Config) (fqdn key : String) :
    Run (Option GoError) :=
  match cfg with
  | .error err => ⟨[], .ret (some err)⟩
  | .ok cfg =>
    match splitDomain fqdn with
    | .panicked msg => ⟨[], .panicked msg⟩
    | .ret (baseDomain, subdomain) =>
      let r := CreateRecord E cfg 0 baseDomain
        { Type_ := "TXT", Name := subdomain, Content := key, Ttl := 600, Id := 0 }
      match r.out with
      | .panicked msg => ⟨r.sent, .panicked msg⟩
      | .ret none => ⟨r.sent, .ret none⟩
      | .ret (some err) =>
        match errorsAs err .websupportErrorStruct with
        | .panicked msg => ⟨r.sent, .panicked msg⟩
        | .ret true => ⟨r.sent, .ret none⟩
        | .ret false => ⟨r.sent, .ret (some err)⟩

/-- The record `CleanUp` passes to `DeleteRecord` as the search pattern. -/
def cleanUpPattern (subdomain key : String) : DnsRecord :=
  { Type_ := "TXT", Name := subdomain, Content := key, Ttl := 600, Id := 0 }

/-- Go `(c *webSupportDNSProviderSolver) CleanUp`, from the result `cfg` of `c.loadConfig(ch)`
on; `fqdn` is `ch.ResolvedFQDN` and `key` is `ch.Key`. -/
def CleanUp (E : Env) (cfg : Except GoError Config) (fqdn key : String) :
    Run (Option GoError) :=
  match cfg with
  | .error err => ⟨[], .ret (some err)⟩
  | .ok cfg =>
    match splitDomain fqdn with
    | .panicked msg => ⟨[], .panicked msg⟩
    | .ret (baseDomain, subdomain) =>
      DeleteRecord E cfg 0 baseDomain (cleanUpPattern subdomain key)

/-- The operation sent a DELETE request for record `id` of zone `zone`. -/
def issuesDelete (r : Run (Option GoError)) (zone : String) (id : Int) : Prop :=
  ∃ req ∈ r.sent, req.Method = "DELETE" ∧ req.URL = recordUrl zone id

/-! ## A concrete environment

`stdEnv` fills the library fields of `Env` with small models of `encoding/json`, `net/url` and
`net/http.NewRequest`, enough to run the client on the examples of the specification. The
general theorems do not depend on it. -/

/-- A parsed JSON value; a number keeps its value only when it is an integer literal. -/
inductive Json where
  | null
  | bool (b : Bool)
  | num (int : Option Int)
  | str (s : String)
  | arr (items : List Json)
  | obj (fields : List (String × Json))

/-- Drops leading JSON whitespace. -/
def skipWs : List Char → List Char
  | c :: cs => if c = ' ' ∨ c = '\n' ∨ c = '\r' ∨ c = '\t' then skipWs cs else c :: cs
  | [] => []

/-- Value of a hexadecimal digit. -/
def hexVal (c : Char) : Option Nat :=
  if '0' ≤ c ∧ c ≤ '9' then some (c.toNat - 48)
  else if 'a' ≤ c ∧ c ≤ 'f' then some (c.toNat - 87)
  else if 'A' ≤ c ∧ c ≤ 'F' then some (c.toNat - 55)
  else none

/-- Reads a JSON string after its opening quote: the decoded text and the rest. -/
def parseStringBody : List Char → Option (List Char × List Char)
  | [] => none
  | '"' :: rest => some ([], rest)
  | '\\' :: 'u' :: a :: b :: c :: d :: rest =>
    match hexVal a, hexVal b, hexVal c, hexVal d, parseStringBody rest with
    | some x, some y, some z, some w, some (s, r) =>
      some (Char.ofNat (x * 4096 + y * 256 + z * 16 + w) :: s, r)
    | _, _, _, _, _ => none
  | '\\' :: e :: rest =>
    let decoded : Option Char :=
      if e = '"' then some '"' else if e = '\\' then some '\\' else if e = '/' then some '/'
      else if e = 'n' then some '\n' else if e = 'r' then some '\r' else if e = 't' then some '\t'
      else if e = 'b' then some (Char.ofNat 8) else if e = 'f' then some (Char.ofNat 12)
      else none
    match decoded, parseStringBody rest with
    | some ch, some (s, r) => some (ch :: s, r)
    | _, _ => none
  | c :: rest =>
    if c.toNat < 0x20 then none
    else
      match parseStringBody rest with
      | some (s, r) => some (c :: s, r)
      | none => none

/-- Whether the character can occur in a JSON number. -/
def isNumberChar (c : Char) : Bool :=
  c.isDigit || c = '-' || c = '+' || c = '.' || c = 'e' || c = 'E'

/-- Value of a number literal when it is an integer literal, `-?[0-9]+`. -/
def intLiteral (cs : List Char) : Option Int :=
  match cs with
  | '-' :: ds =>
    if ds ≠ [] ∧ ds.all Char.isDigit then
      some (-(ds.foldl (fun a c => 10 * a + (c.toNat - 48)) 0 : Nat)) else none
  | ds =>
    if ds ≠ [] ∧ ds.all Char.isDigit then
      some (ds.foldl (fun a c => 10 * a + (c.toNat - 48)) 0 : Nat) else none

mutual
/-- Reads one JSON value; `fuel` bounds the nesting and the number of members read. -/
def parseValue : Nat → List Char → Option (Json × List Char)
  | 0, _ => none
  | fuel + 1, cs =>
    match skipWs cs with
    | 'n' :: 'u' :: 'l' :: 'l' :: rest => some (.null, rest)
    | 't' :: 'r' :: 'u' :: 'e' :: rest => some (.bool true, rest)
    | 'f' :: 'a' :: 'l' :: 's' :: 'e' :: rest => some (.bool false, rest)
    | '"' :: rest =>
      match parseStringBody rest with
      | some (s, r) => some (.str ⟨s⟩, r)
      | none => none
    | '[' :: rest =>
      match skipWs rest with
      | ']' :: r => some (.arr [], r)
      | _ =>
        match parseElems fuel rest with
        | some (items, r) => some (.arr items, r)
        | none => none
    | '{' :: rest =>
      match skipWs rest with
      | '}' :: r => some (.obj [], r)
      | _ =>
        match parseMembers fuel rest with
        | some (fields, r) => some (.obj fields, r)
        | none => none
    | c :: rest =>
      if c.isDigit ∨ c = '-' then
        some (.num (intLiteral ((c :: rest).takeWhile isNumberChar)),
          (c :: rest).dropWhile isNumberChar)
      else none
    | [] => none
/-- Reads the elements of a non-empty array up to and including the closing bracket. -/
def parseElems : Nat → List Char → Option (List Json × List Char)
  | 0, _ => none
  | fuel + 1, cs =>
    match parseValue fuel cs with
    | none => none
    | some (v, rest) =>
      match skipWs rest with
      | ',' :: r =>
        match parseElems fuel r with
        | some (vs, r2) => some (v :: vs, r2)
        | none => none
      | ']' :: r => some ([v], r)
      | _ => none
/-- Reads the members of a non-empty object up to and including the closing brace. -/
def parseMembers : Nat → List Char → Option (List (String × Json) × List Char)
  | 0, _ => none
  | fuel + 1, cs =>
    match skipWs cs with
    | '"' :: rest =>
      match parseStringBody rest with
      | none => none
      | some (k, r1) =>
        match skipWs r1 with
        | ':' :: r2 =>
          match parseValue fuel r2 with
          | none => none
          | some (v, r3) =>
            match skipWs r3 with
            | ',' :: r4 =>
              match parseMembers fuel r4 with
              | some (kvs, r5) => some ((⟨k⟩, v) :: kvs, r5)
              | none => none
            | '}' :: r4 => some ([(⟨k⟩, v)], r4)
            | _ => none
        | _ => none
    | _ => none
end

/-- The first JSON value of a body, as `json.Decoder` reads it; `none` on a syntax error or
an empty body. -/
def parseJson (body : String) : Option Json :=
  (parseValue (body.data.length + 1) body.data).map Prod.fst

/-- Key folding of `encoding/json`: a key names a field when it equals its tag up to case. -/
def keyIs (key tag : String) : Bool := key.data.map Char.toLower == tag.data

/-- Decoding into a `string` field: the new value, and whether the JSON type was wrong. -/
def decodeString (cur : String) : Json → String × Bool
  | .str s => (s, false)
  | .null => (cur, false)
  | _ => (cur, true)

/-- Decoding into an `int` field. -/
def decodeInt (cur : Int) : Json → Int × Bool
  | .num (some i) => (i, false)
  | .null => (cur, false)
  | _ => (cur, true)

/-- Decoding one member of an object into a `DnsRecord`. -/
def decodeRecordField (acc : DnsRecord × Bool) (kv : String × Json) : DnsRecord × Bool :=
  let (r, bad) := acc
  if keyIs kv.1 "type" then
    let (v, b) := decodeString r.Type_ kv.2
    ({ r with Type_ := v }, bad || b)
  else if keyIs kv.1 "name" then
    let (v, b) := decodeString r.Name kv.2
    ({ r with Name := v }, bad || b)
  else if keyIs kv.1 "content" then
    let (v, b) := decodeString r.Content kv.2
    ({ r with Content := v }, bad || b)
  else if keyIs kv.1 "ttl" then
    let (v, b) := decodeInt r.Ttl kv.2
    ({ r with Ttl := v }, bad || b)
  else if keyIs kv.1 "id" then
    let (v, b) := decodeInt r.Id kv.2
    ({ r with Id := v }, bad || b)
  else (r, bad)

/-- Decoding into a `DnsRecord`. -/
def decodeRecord (cur : DnsRecord) : Json → DnsRecord × Bool
  | .obj fields => fields.foldl decodeRecordField (cur, false)
  | .null => (cur, false)
  | _ => (cur, true)

/-- Decoding into a `[]string`. -/
def decodeStrings (cur : List String) : Json → List String × Bool
  | .arr items =>
    (items.map fun j => (decodeString "" j).1, items.any fun j => (decodeString "" j).2)
  | .null => ([], false)
  | _ => (cur, true)

/-- Decoding into an `HttpErrorContent`. -/
def decodeErrorContent (cur : HttpErrorContent) : Json → HttpErrorContent × Bool
  | .obj fields =>
    fields.foldl
      (fun acc kv =>
        if keyIs kv.1 "content" then
          let (v, b) := decodeStrings acc.1.Content kv.2
          ({ Content := v }, acc.2 || b)
        else acc)
      (cur, false)
  | .null => (cur, false)
  | _ => (cur, true)

/-- Decoding one member of an object into a `WebsupportError`. -/
def decodeErrorField (acc : WebsupportError × Bool) (kv : String × Json) :
    WebsupportError × Bool :=
  let (e, bad) := acc
  if keyIs kv.1 "item" then
    let (v, b) := decodeRecord e.Item kv.2
    ({ e with Item := v }, bad || b)
  else if keyIs kv.1 "status" then
    let (v, b) := decodeString e.Status kv.2
    ({ e with Status := v }, bad || b)
  else if keyIs kv.1 "errors" then
    let (v, b) := decodeErrorContent e.Errors kv.2
    ({ e with Errors := v }, bad || b)
  else (e, bad)

/-- Model of `json.NewDecoder(body).Decode(&wsError)` on a zero `wsError`: the value left in
`wsError`. A body that is not JSON leaves it untouched. -/
def stdDecodeError (body : String) : WebsupportError :=
  match parseJson body with
  | some (.obj fields) => (fields.foldl decodeErrorField (WebsupportError.zero, false)).1
  | _ => WebsupportError.zero

/-- Decoding into a `[]DnsRecord`. -/
def decodeRecords : Json → List DnsRecord × Bool
  | .arr items =>
    (items.map fun j => (decodeRecord WebsupportError.zero.Item j).1,
      items.any fun j => (decodeRecord WebsupportError.zero.Item j).2)
  | .null => ([], false)
  | _ => ([], true)

/-- Model of `json.NewDecoder(body).Decode(&domains)`. -/
def stdDecodeDomains (body : String) : Except GoError Domains :=
  match parseJson body with
  | none => .error (.other "invalid JSON")
  | some (.obj fields) =>
    let r := fields.foldl
      (fun (acc : List DnsRecord × Bool) kv =>
        if keyIs kv.1 "items" then
          let (v, b) := decodeRecords kv.2
          (v, acc.2 || b)
        else acc)
      ([], false)
    if r.2 then .error (.other "json: cannot unmarshal value into Go struct field")
    else .ok { Items := r.1 }
  | some .null => .ok { Items := [] }
  | some _ => .error (.other "json: cannot unmarshal value into Go value of type Domains")

/-- JSON string literal of a text (quotes, backslashes and common control characters escaped). -/
def jsonQuote (s : String) : String :=
  "\"" ++ ⟨s.data.flatMap fun c =>
    if c = '"' then ['\\', '"'] else if c = '\\' then ['\\', '\\']
    else if c = '\n' then ['\\', 'n'] else if c = '\r' then ['\\', 'r']
    else if c = '\t' then ['\\', 't'] else [c]⟩ ++ "\""

/-- Model of `json.Marshal(dnsRecord)`, which cannot fail on a `DnsRecord`. -/
def stdMarshal (r : DnsRecord) : Except GoError String :=
  .ok ("\x7b\"type\":" ++ jsonQuote r.Type_ ++ ",\"name\":" ++ jsonQuote r.Name ++
    ",\"content\":" ++ jsonQuote r.Content ++ ",\"ttl\":" ++ sprintD r.Ttl ++
    ",\"id\":" ++ sprintD r.Id ++ "\x7d")

/-- Drops a leading `scheme:` when the text starts with one. -/
def dropScheme (cs : List Char) : List Char :=
  let name := cs.takeWhile fun c => c.isAlphanum || c = '+' || c = '-' || c = '.'
  match cs.drop name.length with
  | ':' :: rest => if name ≠ [] ∧ (name.headD ' ').isAlpha then rest else cs
  | _ => cs

/-- Model of `url.Parse(u)` then `.Path`, for a URL without percent-escapes: control
characters are rejected, the fragment, the query, the scheme and the authority are removed. -/
def stdUrlPath (u : String) : Except GoError String :=
  if u.data.any (fun c => c.toNat < 0x20 || c.toNat == 0x7f) then
    .error (.other "net/url: invalid control character in URL")
  else
    let noFragment := u.data.takeWhile (· ≠ '#')
    let noQuery := noFragment.takeWhile (· ≠ '?')
    match dropScheme noQuery with
    | '/' :: '/' :: rest => .ok ⟨rest.dropWhile (· ≠ '/')⟩
    | rest => .ok ⟨rest⟩

/-- Whether the character may occur in an HTTP method (a token character). -/
def isTokenChar (c : Char) : Bool :=
  c.isAlphanum || "!#$%&'*+-.^_`|~".data.contains c

/-- Model of the error of `http.NewRequest`: the method must be a token, the URL must parse. -/
def stdHttpNewRequest (method url : String) : Option GoError :=
  if !method.data.all isTokenChar then some (.other "net/http: invalid method")
  else
    match stdUrlPath url with
    | .error err => some err
    | .ok _ => none

/-- The concrete environment over a clock and a round trip. -/
def stdEnv (now : Nat → Time) (roundTrip : HttpRequest → Option HttpResponse × Option GoError) :
    Env :=
  { urlPath := stdUrlPath, httpNewRequest := stdHttpNewRequest, now := now, Do := roundTrip,
    jsonMarshal := stdMarshal, jsonDecodeError := stdDecodeError,
    jsonDecodeDomains := stdDecodeDomains }

/-! ## The record lookup as the specification words it -/

/-- The match condition of the specification: name and type agree exactly; content, id and
ttl agree when the pattern sets them. -/
def specMatches (p r : DnsRecord) : Prop :=
  r.Name = p.Name ∧ r.Type_ = p.Type_ ∧ (p.Content = "" ∨ r.Content = p.Content) ∧
    (p.Id = 0 ∨ r.Id = p.Id) ∧ (p.Ttl = 0 ∨ r.Ttl = p.Ttl)

instance (p r : DnsRecord) : Decidable (specMatches p r) := by
  unfold specMatches
  infer_instance

/-- The lookup of the specification: the first record of the listing that matches the
pattern, or a not-found error carrying the pattern and one message. -/
def specFindRecord (items : List DnsRecord) (p : DnsRecord) : Except GoError DnsRecord :=
  match items.find? (fun r => decide (specMatches p r)) with
  | some r => .ok r
  | none =>
    .error (.websupport
      { Item := p, Status := "", Errors := { Content := [notFoundMessage p] } })

instance (r : Run (Option GoError)) (zone : String) (id : Int) :
    Decidable (issuesDelete r zone id) := by
  unfold issuesDelete
  infer_instance

/-! ## Example scenarios -/

/-- Credentials used in the examples. -/
def exampleConfig : Config := { ApiKey := "key", ApiSecret := "secret" }

/-- A UTC clock that advances by one second at each reading. -/
def tickingClock (start : Int) : Nat → Time :=
  fun n => { unix := start + n, nsec := 0, zoneOffset := 0 }

/-- A provider that answers every GET with `200 OK` and the given body, and every other
request with the given response. -/
def provider (listing : String) (other : HttpResponse) :
    HttpRequest → Option HttpResponse × Option GoError :=
  fun req =>
    if req.Method = "GET" then
      (some { StatusCode := 200, Status := "200 OK", Body := listing }, none)
    else (some other, none)

/-- The response `204 No Content`. -/
def noContent : HttpResponse := { StatusCode := 204, Status := "204 No Content", Body := "" }

/-- Body of a zone listing with two TXT records of the same name, contents `AAA` and `BBB`. -/
def twoRecordsBody : String :=
  "\x7b\"items\":[" ++
    "\x7b\"type\":\"TXT\",\"name\":\"_acme-challenge\",\"content\":\"AAA\",\"ttl\":600,\"id\":1\x7d," ++
    "\x7b\"type\":\"TXT\",\"name\":\"_acme-challenge\",\"content\":\"BBB\",\"ttl\":600,\"id\":2\x7d" ++
    "]\x7d"

/-- The records of `twoRecordsBody`. -/
def twoRecords : List DnsRecord :=
  [{ Type_ := "TXT", Name := "_acme-challenge", Content := "AAA", Ttl := 600, Id := 1 },
    { Type_ := "TXT", Name := "_acme-challenge", Content := "BBB", Ttl := 600, Id := 2 }]

/-- A provider holding the two records that accepts every other request. -/
def twoRecordsEnv : Env := stdEnv (tickingClock 1700000000) (provider twoRecordsBody noContent)

/-- Body of a zone listing whose only record has content `AAA` and ttl 300. -/
def ttl300Body : String :=
  "\x7b\"items\":[" ++
    "\x7b\"type\":\"TXT\",\"name\":\"_acme-challenge\",\"content\":\"AAA\",\"ttl\":300,\"id\":7\x7d" ++
    "]\x7d"

/-- A provider whose zone holds the single record of ttl 300. -/
def ttl300Env : Env := stdEnv (tickingClock 1700000000) (provider ttl300Body noContent)

/-- The error response of the provider to the creation of a record that exists already. -/
def duplicateResponse : HttpResponse :=
  { StatusCode := 400, Status := "400 Bad Request",
    Body :=
      "\x7b\"item\":" ++
        "\x7b\"type\":\"TXT\",\"name\":\"_acme-challenge\",\"content\":\"AAA\",\"ttl\":600\x7d," ++
        "\"status\":\"error\"," ++
        "\"errors\":\x7b\"content\":[\"The record already exists.\"]\x7d\x7d" }

/-- A provider that rejects every create request as a duplicate. -/
def duplicateEnv : Env :=
  stdEnv (tickingClock 1700000000) (provider twoRecordsBody duplicateResponse)

/-- An environment whose round trip fails without a response, as on a DNS resolution failure. -/
def unreachableEnv : Env :=
  stdEnv (tickingClock 1700000000)
    (fun _ => (none, some (.other "dial tcp: lookup rest.websupport.sk: no such host")))

/-- An environment whose every response is `502 Bad Gateway` with an empty body. -/
def badGatewayEnv : Env :=
  stdEnv (tickingClock 1700000000)
    (fun _ => (some { StatusCode := 502, Status := "502 Bad Gateway", Body := "" }, none))

/-- An environment whose clock passes from second 59 to second 60 between the first two
readings. -/
def boundaryEnv : Env :=
  stdEnv
    (fun n =>
      if n = 0 then { unix := 59, nsec := 999999000, zoneOffset := 0 }
      else { unix := 60, nsec := 1000, zoneOffset := 0 })
    (provider twoRecordsBody noContent)

/-- The body of the 503 example of the specification. -/
def serviceUnavailableBody : String :=
  "\x7b\"status\":\"Service Unavailable\",\"errors\":\x7b\"content\":[\"try later\"]\x7d\x7d"

/-- An environment whose every response is the 503 example of the specification. -/
def serviceUnavailableEnv : Env :=
  stdEnv (tickingClock 1700000000)
    (fun _ => (some { StatusCode := 503, Status := "503 Service Unavailable",
                      Body := serviceUnavailableBody }, none))

set_option maxRecDepth 1000000

/-! ## Lemmas on strings and formatting -/

theorem splitChars_append (sep : Char) (a : List Char) (ha : sep ∉ a) (rest : List Char) :
    splitChars sep (a ++ sep :: rest) = a :: splitChars sep rest := by
  induction a with
  | nil => simp [splitChars]
  | cons c cs ih =>
    have hc : c ≠ sep := fun h => ha (by simp [h])
    have hcs : sep ∉ cs := fun h => ha (by simp [h])
    simp [splitChars, hc, ih hcs]

theorem splitChars_single (sep : Char) (a : List Char) (ha : sep ∉ a) :
    splitChars sep a = [a] := by
  induction a with
  | nil => simp [splitChars]
  | cons c cs ih =>
    have hc : c ≠ sep := fun h => ha (by simp [h])
    have hcs : sep ∉ cs := fun h => ha (by simp [h])
    simp [splitChars, hc, ih hcs]

theorem splitChars_joinChars (sep : Char) (ls : List (List Char)) (hne : ls ≠ [])
    (h : ∀ l ∈ ls, sep ∉ l) : splitChars sep (joinChars sep ls) = ls := by
  induction ls with
  | nil => exact absurd rfl hne
  | cons a rest ih =>
    cases rest with
    | nil => simpa [joinChars] using splitChars_single sep a (h a (by simp))
    | cons b rest =>
      have h1 := ih (by simp) (fun l hl => h l (by simp [hl]))
      simp only [joinChars] at h1 ⊢
      rw [splitChars_append sep a (h a (by simp)), h1]

theorem stringsJoin_data (ls : List String) (sep : Char) :
    (stringsJoin ls (String.singleton sep)).data = joinChars sep (ls.map String.data) := by
  induction ls with
  | nil => rfl
  | cons a rest ih =>
    cases rest with
    | nil => rfl
    | cons b rest =>
      simp only [stringsJoin, List.map, joinChars] at ih ⊢
      rw [String.data_append, String.data_append, ih]
      simp [String.singleton]

theorem stringsSplit_join (ls : List String) (sep : Char) (hne : ls ≠ [])
    (h : ∀ l ∈ ls, sep ∉ l.data) :
    stringsSplit (stringsJoin ls (String.singleton sep)) sep = ls := by
  unfold stringsSplit
  rw [stringsJoin_data, splitChars_joinChars sep _ (by simpa using hne)]
  · simp [List.map_map, Function.comp_def]
  · intro l hl
    obtain ⟨s, hs, rfl⟩ := List.mem_map.1 hl
    exact h s hs

theorem splitDomain_of_labels (domain : String) (pre : List String) (a b : String)
    (hdot : ∀ l ∈ pre ++ [a, b], '.' ∉ l.data)
    (hdom : stringsTrimSuffix domain "." = stringsJoin (pre ++ [a, b]) ".") :
    splitDomain domain = .ret (a ++ "." ++ b, stringsJoin pre ".") := by
  have hsplit : stringsSplit (stringsTrimSuffix domain ".") '.' = pre ++ [a, b] := by
    rw [hdom]
    exact stringsSplit_join (pre ++ [a, b]) '.' (by simp) hdot
  unfold splitDomain
  simp only [hsplit]
  have hlen : (pre ++ [a, b]).length - 2 = pre.length := by simp
  rw [hlen]
  simp [stringsJoin]

theorem digitChar_value (d : Nat) (h : d < 10) : (Nat.digitChar d).toNat - 48 = d := by
  interval_cases d <;> rfl

theorem digitChar_ne_minus (d : Nat) (h : d < 10) : Nat.digitChar d ≠ '-' := by
  interval_cases d <;> decide

theorem readDecimal_toDigitsCore (fuel : Nat) :
    ∀ (n : Nat) (ds : List Char), n < fuel →
      (Nat.toDigitsCore 10 fuel n ds).foldl (fun a c => 10 * a + (c.toNat - 48)) 0 =
        ds.foldl (fun a c => 10 * a + (c.toNat - 48)) n := by
  induction fuel with
  | zero => intro n ds h; omega
  | succ fuel ih =>
    intro n ds h
    unfold Nat.toDigitsCore
    by_cases h0 : n / 10 = 0
    · simp only [h0, if_true, List.foldl_cons]
      rw [digitChar_value _ (Nat.mod_lt _ (by decide))]
      congr 1
      omega
    · simp only [h0, if_false]
      rw [ih (n / 10) _ (by omega)]
      simp only [List.foldl_cons]
      rw [digitChar_value _ (Nat.mod_lt _ (by decide))]
      congr 1
      omega

theorem readDecimal_repr (n : Nat) : readDecimal (Nat.repr n).data = n := by
  unfold readDecimal Nat.repr Nat.toDigits
  simpa [List.asString] using readDecimal_toDigitsCore (n + 1) n [] (by omega)

theorem minus_not_mem_toDigitsCore (fuel : Nat) :
    ∀ (n : Nat) (ds : List Char), '-' ∉ ds → '-' ∉ Nat.toDigitsCore 10 fuel n ds := by
  induction fuel with
  | zero => intro n ds h; simpa [Nat.toDigitsCore] using h
  | succ fuel ih =>
    intro n ds h
    have hd : '-' ∉ Nat.digitChar (n % 10) :: ds := by
      intro hmem
      rcases List.mem_cons.1 hmem with h1 | h1
      · exact digitChar_ne_minus _ (Nat.mod_lt _ (by decide)) h1.symm
      · exact h h1
    unfold Nat.toDigitsCore
    by_cases h0 : n / 10 = 0
    · simpa only [h0, if_true] using hd
    · simpa only [h0, if_false] using ih _ _ hd

theorem minus_not_mem_repr (n : Nat) : '-' ∉ (Nat.repr n).data := by
  unfold Nat.repr Nat.toDigits
  simpa [List.asString] using minus_not_mem_toDigitsCore (n + 1) n [] (by simp)

theorem natRepr_injective {n m : Nat} (h : Nat.repr n = Nat.repr m) : n = m := by
  rw [← readDecimal_repr n, ← readDecimal_repr m, h]

theorem sprintD_injective {i j : Int} (h : sprintD i = sprintD j) : i = j := by
  cases i with
  | ofNat n =>
    cases j with
    | ofNat m => simp only [sprintD] at h; rw [natRepr_injective h]
    | negSucc m =>
      exfalso
      simp only [sprintD] at h
      have hm := minus_not_mem_repr n
      rw [h] at hm
      exact hm (by simp [String.data_append])
  | negSucc n =>
    cases j with
    | ofNat m =>
      exfalso
      simp only [sprintD] at h
      have hm := minus_not_mem_repr m
      rw [← h] at hm
      exact hm (by simp [String.data_append])
    | negSucc m =>
      simp only [sprintD] at h
      have h2 : Nat.repr (n + 1) = Nat.repr (m + 1) := by
        have := congrArg String.data h
        simp only [String.data_append, List.append_cancel_left_eq] at this
        exact String.ext this
      have := natRepr_injective h2
      simp at this
      rw [this]

theorem recordUrl_injective {zone : String} {i j : Int}
    (h : recordUrl zone i = recordUrl zone j) : i = j := by
  unfold recordUrl at h
  have := congrArg String.data h
  simp only [String.data_append, List.append_cancel_left_eq] at this
  exact sprintD_injective (String.ext this)

/-! ## Lemmas on the digest and its rendering -/

theorem be32_length (w : Nat) : (be32 w).length = 4 := rfl

theorem sha1_length (msg : List Nat) : (sha1 msg).length = 20 := by
  simp [sha1, be32]

theorem hmacSha1_length (key msg : List Nat) : (hmacSha1 key msg).length = 20 := by
  unfold hmacSha1
  exact sha1_length _

theorem hexDigit_mem (n : Nat) (h : n < 16) : hexDigit n ∈ "0123456789abcdef".data := by
  interval_cases n <;> decide

theorem sprintX_length (bs : List Nat) : (sprintX bs).length = 2 * bs.length := by
  unfold sprintX
  show (bs.flatMap _).length = _
  induction bs with
  | nil => rfl
  | cons b bs ih =>
    simp only [List.flatMap_cons, List.length_append, List.length_cons, List.length_nil, ih]
    omega

theorem sprintX_chars (bs : List Nat) :
    ∀ c ∈ (sprintX bs).data, c ∈ "0123456789abcdef".data := by
  unfold sprintX
  intro c hc
  obtain ⟨b, _, hb⟩ := List.mem_flatMap.1 hc
  rcases List.mem_cons.1 hb with h | h
  · rw [h]; exact hexDigit_mem _ (Nat.mod_lt _ (by decide))
  · rw [List.mem_singleton.1 h]; exact hexDigit_mem _ (Nat.mod_lt _ (by decide))

/-- Known answer of RFC 2202, test case 2, for the HMAC-SHA1 model. -/
theorem hmacSha1_rfc2202_case2 :
    sprintX (hmacSha1 (utf8Bytes "Jefe") (utf8Bytes "what do ya want for nothing?")) =
      "effcdf6ae5eb2fa2d27416d5f184df9c259a7c79" := by
  decide

/-! ## Lemmas on the client -/

theorem NewRequest_date_and_signature (E : Env) (config : Config) (clk : Nat)
    (method url data : String) (req : HttpRequest)
    (h : NewRequest E config clk method url data = .ok req) :
    req.Date = (E.now clk).FormatRFC3339 ∧
      ∃ path, E.urlPath url = .ok path ∧
        req.AuthPassword = sprintX (hmacSha1 (utf8Bytes config.ApiSecret)
          (utf8Bytes (signedMessage method path (E.now (clk + 1)).Unix))) := by
  unfold NewRequest at h
  split at h
  · simp at h
  · unfold secretSignature at h
    cases hp : E.urlPath url with
    | error e => simp [hp] at h
    | ok path =>
      simp only [hp] at h
      injection h with h
      subst h
      exact ⟨rfl, path, rfl, rfl⟩

theorem notFound_Error (p : DnsRecord) :
    WebsupportError.Error
      { Item := p, Status := "", Errors := { Content := [notFoundMessage p] } } =
      .ret (notFoundMessage p) := rfl

theorem findLoop_eq_spec (p : DnsRecord) (items : List DnsRecord) :
    findLoop p items = specFindRecord items p := by
  induction items with
  | nil => rfl
  | cons r rest ih =>
    have hiff : recordMatches p r = true ↔ specMatches p r := by
      simp [recordMatches, specMatches, and_assoc]
    unfold findLoop specFindRecord
    by_cases hm : recordMatches p r = true
    · have hs : specMatches p r := hiff.1 hm
      simp [hm, hs, List.find?]
    · have hs : ¬ specMatches p r := fun h => hm (hiff.2 h)
      simp only [hm, List.find?, hs, decide_False]
      rw [ih]
      rfl

theorem recordMatches_iff (p r : DnsRecord) : recordMatches p r = true ↔ specMatches p r := by
  simp [recordMatches, specMatches, and_assoc]

theorem findLoop_ok_iff (p : DnsRecord) (items : List DnsRecord) (r : DnsRecord) :
    findLoop p items = .ok r ↔
      ∃ pre post, items = pre ++ r :: post ∧ specMatches p r ∧ ∀ x ∈ pre, ¬ specMatches p x := by
  induction items with
  | nil => simp [findLoop]
  | cons x rest ih =>
    unfold findLoop
    by_cases hm : recordMatches p x = true
    · have hs := (recordMatches_iff p x).1 hm
      simp only [hm, if_true]
      constructor
      · intro h
        injection h with h
        subst h
        exact ⟨[], rest, rfl, hs, by simp⟩
      · rintro ⟨pre, post, heq, _, hpre⟩
        cases pre with
        | nil =>
          simp only [List.nil_append, List.cons.injEq] at heq
          rw [heq.1]
        | cons y pre =>
          simp only [List.cons_append, List.cons.injEq] at heq
          exact absurd (heq.1 ▸ hs) (hpre y (by simp))
    · have hs : ¬ specMatches p x := fun h => hm ((recordMatches_iff p x).2 h)
      rw [if_neg hm, ih]
      constructor
      · rintro ⟨pre, post, heq, hr, hpre⟩
        refine ⟨x :: pre, post, by simp [heq], hr, ?_⟩
        intro y hy
        rcases List.mem_cons.1 hy with h | h
        · rw [h]; exact hs
        · exact hpre y h
      · rintro ⟨pre, post, heq, hr, hpre⟩
        cases pre with
        | nil =>
          simp only [List.nil_append, List.cons.injEq] at heq
          exact absurd (heq.1 ▸ hr) hs
        | cons y pre =>
          simp only [List.cons_append, List.cons.injEq] at heq
          exact ⟨pre, post, heq.2, hr, fun z hz => hpre z (by simp [hz])⟩

theorem findLoop_not_found (p : DnsRecord) (items : List DnsRecord)
    (h : ∀ x ∈ items, ¬ specMatches p x) :
    findLoop p items = .error (.websupport
      { Item := p, Status := "", Errors := { Content := [notFoundMessage p] } }) := by
  induction items with
  | nil => rfl
  | cons x rest ih =>
    have hx : ¬ recordMatches p x = true := fun hm => h x (by simp) ((recordMatches_iff p x).1 hm)
    unfold findLoop
    rw [if_neg hx]
    exact ih (fun y hy => h y (by simp [hy]))

theorem findLoop_found_of_mem (p : DnsRecord) (items : List DnsRecord) (r : DnsRecord)
    (hr : r ∈ items) (hm : specMatches p r) : ∃ r', findLoop p items = .ok r' := by
  induction items with
  | nil => simp at hr
  | cons x rest ih =>
    unfold findLoop
    by_cases hx : recordMatches p x = true
    · exact ⟨x, by simp [hx]⟩
    · rw [if_neg hx]
      rcases List.mem_cons.1 hr with h | h
      · exact absurd ((recordMatches_iff p x).2 (h ▸ hm)) hx
      · exact ih h

theorem NewRequest_method_url (E : Env) (config : Config) (clk : Nat) (method url data : String)
    (req : HttpRequest) (h : NewRequest E config clk method url data = .ok req) :
    req.Method = method ∧ req.URL = url := by
  unfold NewRequest at h
  split at h
  · simp at h
  · split at h
    · simp at h
    · injection h with h
      subst h
      exact ⟨rfl, rfl⟩

theorem Request_sent (E : Env) (config : Config) (clk : Nat) (method url data : String) :
    ∀ req ∈ (Request E config clk method url data).sent, req.Method = method ∧ req.URL = url := by
  intro req hreq
  unfold Request at hreq
  split at hreq
  · simp at hreq
  · rename_i r hnew
    have hmu := NewRequest_method_url E config clk method url data r hnew
    split at hreq
    · simp only [List.mem_singleton] at hreq; rw [hreq]; exact hmu
    · split at hreq <;>
      · simp only [List.mem_singleton] at hreq; rw [hreq]; exact hmu

theorem Request_of_response (E : Env) (config : Config) (clk : Nat) (method url data : String)
    (req : HttpRequest) (resp : HttpResponse) (err : Option GoError)
    (hnew : NewRequest E config clk method url data = .ok req)
    (hdo : E.Do req = (some resp, err)) :
    Request E config clk method url data =
      if resp.StatusCode ≥ 400 then
        ⟨[req], .ret (none,
          some (.websupport { E.jsonDecodeError resp.Body with Status := resp.Status }))⟩
      else ⟨[req], .ret (some resp, err)⟩ := by
  unfold Request
  simp only [hnew, hdo]

theorem Request_of_no_response (E : Env) (config : Config) (clk : Nat)
    (method url data : String) (req : HttpRequest) (err : Option GoError)
    (hnew : NewRequest E config clk method url data = .ok req)
    (hdo : E.Do req = (none, err)) :
    Request E config clk method url data =
      ⟨[req], .panicked "runtime error: invalid memory address or nil pointer dereference"⟩ := by
  unfold Request
  simp only [hnew, hdo]

theorem Request_sent_of_built (E : Env) (config : Config) (clk : Nat)
    (method url data : String) (req : HttpRequest)
    (hnew : NewRequest E config clk method url data = .ok req) :
    (Request E config clk method url data).sent = [req] := by
  unfold Request
  simp only [hnew]
  split
  · rfl
  · split <;> rfl

theorem GetDNSRecords_sent (E : Env) (config : Config) (clk : Nat) (domainName : String) :
    ∀ req ∈ (GetDNSRecords E config clk domainName).sent, req.Method = "GET" := by
  intro req hreq
  have hs : (GetDNSRecords E config clk domainName).sent =
      (Request E config clk "GET" (BaseUrl ++ domainName ++ "/record") "").sent := by
    unfold GetDNSRecords
    simp only
    split <;> rfl
  rw [hs] at hreq
  exact (Request_sent E config clk "GET" _ "" req hreq).1

theorem FindDNSRecord_of_listing (E : Env) (config : Config) (clk : Nat) (domainName : String)
    (p : DnsRecord) (items : List DnsRecord)
    (hfetch : (GetDNSRecords E config clk domainName).out = .ret (.ok { Items := items })) :
    (FindDNSRecord E config clk domainName p).out = .ret (findLoop p items) ∧
      (FindDNSRecord E config clk domainName p).sent =
        (GetDNSRecords E config clk domainName).sent := by
  simp [FindDNSRecord, hfetch]

theorem FindDNSRecord_sent (E : Env) (config : Config) (clk : Nat) (domainName : String)
    (p : DnsRecord) :
    (FindDNSRecord E config clk domainName p).sent =
      (GetDNSRecords E config clk domainName).sent := by
  unfold FindDNSRecord
  simp only
  split <;> rfl

/-! ## Lemmas on DeleteRecord and CleanUp -/

theorem DeleteRecord_sent_of_found (E : Env) (config : Config) (clk : Nat) (zone : String)
    (p found : DnsRecord)
    (hfound : (FindDNSRecord E config clk zone p).out = .ret (.ok found)) :
    (DeleteRecord E config clk zone p).sent =
      (FindDNSRecord E config clk zone p).sent ++
        (Request E config (clk + 2) "DELETE" (recordUrl zone found.Id) "").sent := by
  unfold DeleteRecord
  simp only [hfound]
  split <;> rfl

theorem DeleteRecord_sent_of_error (E : Env) (config : Config) (clk : Nat) (zone : String)
    (p : DnsRecord) (err : GoError)
    (hfound : (FindDNSRecord E config clk zone p).out = .ret (.error err)) :
    DeleteRecord E config clk zone p =
      ⟨(FindDNSRecord E config clk zone p).sent, .ret (some err)⟩ := by
  unfold DeleteRecord
  simp only [hfound]

theorem DeleteRecord_sent_of_panic (E : Env) (config : Config) (clk : Nat) (zone : String)
    (p : DnsRecord) (msg : String)
    (hfound : (FindDNSRecord E config clk zone p).out = .panicked msg) :
    DeleteRecord E config clk zone p =
      ⟨(FindDNSRecord E config clk zone p).sent, .panicked msg⟩ := by
  unfold DeleteRecord
  simp only [hfound]

theorem FindDNSRecord_sent_get (E : Env) (config : Config) (clk : Nat) (zone : String)
    (p : DnsRecord) : ∀ req ∈ (FindDNSRecord E config clk zone p).sent, req.Method ≠ "DELETE" := by
  intro req hreq hdel
  rw [FindDNSRecord_sent] at hreq
  have hget := GetDNSRecords_sent E config clk zone req hreq
  rw [hget] at hdel
  exact absurd hdel (by decide)

theorem DeleteRecord_target (E : Env) (config : Config) (clk : Nat) (zone : String)
    (p : DnsRecord) (i : Int) (h : issuesDelete (DeleteRecord E config clk zone p) zone i) :
    ∃ found, (FindDNSRecord E config clk zone p).out = .ret (.ok found) ∧ found.Id = i := by
  obtain ⟨req, hmem, hmethod, hurl⟩ := h
  cases hf : (FindDNSRecord E config clk zone p).out with
  | panicked msg =>
    rw [DeleteRecord_sent_of_panic E config clk zone p msg hf] at hmem
    exact absurd hmethod (FindDNSRecord_sent_get E config clk zone p req hmem)
  | ret res =>
    cases res with
    | error err =>
      rw [DeleteRecord_sent_of_error E config clk zone p err hf] at hmem
      exact absurd hmethod (FindDNSRecord_sent_get E config clk zone p req hmem)
    | ok found =>
      rw [DeleteRecord_sent_of_found E config clk zone p found hf] at hmem
      rcases List.mem_append.1 hmem with h1 | h1
      · exact absurd hmethod (FindDNSRecord_sent_get E config clk zone p req h1)
      · have hu := (Request_sent E config (clk + 2) "DELETE" _ "" req h1).2
        rw [hurl] at hu
        exact ⟨found, rfl, (recordUrl_injective hu).symm⟩

theorem DeleteRecord_sends (E : Env) (config : Config) (clk : Nat) (zone : String)
    (p found : DnsRecord) (req : HttpRequest)
    (hfound : (FindDNSRecord E config clk zone p).out = .ret (.ok found))
    (hnew : NewRequest E config (clk + 2) "DELETE" (recordUrl zone found.Id) "" = .ok req) :
    issuesDelete (DeleteRecord E config clk zone p) zone found.Id := by
  have hmu := NewRequest_method_url E config (clk + 2) "DELETE" _ "" req hnew
  refine ⟨req, ?_, hmu.1, hmu.2⟩
  rw [DeleteRecord_sent_of_found E config clk zone p found hfound,
    Request_sent_of_built E config (clk + 2) "DELETE" _ "" req hnew]
  simp

theorem CleanUp_eq_DeleteRecord (E : Env) (cfg : Config) (fqdn key zone sub : String)
    (hsplit : splitDomain fqdn = .ret (zone, sub)) :
    CleanUp E (.ok cfg) fqdn key = DeleteRecord E cfg 0 zone (cleanUpPattern sub key) := by
  simp [CleanUp, hsplit]

theorem specMatches_cleanUpPattern (sub key : String) (r : DnsRecord) :
    specMatches (cleanUpPattern sub key) r ↔
      r.Name = sub ∧ r.Type_ = "TXT" ∧ (key = "" ∨ r.Content = key) ∧ r.Ttl = 600 := by
  simp [specMatches, cleanUpPattern]

theorem CleanUp_target (E : Env) (cfg : Config) (fqdn key zone sub : String)
    (items : List DnsRecord) (i : Int)
    (hsplit : splitDomain fqdn = .ret (zone, sub))
    (hfetch : (GetDNSRecords E cfg 0 zone).out = .ret (.ok { Items := items }))
    (h : issuesDelete (CleanUp E (.ok cfg) fqdn key) zone i) :
    ∃ r ∈ items, r.Id = i ∧ r.Name = sub ∧ r.Type_ = "TXT" ∧ (key = "" ∨ r.Content = key) ∧
      r.Ttl = 600 := by
  rw [CleanUp_eq_DeleteRecord E cfg fqdn key zone sub hsplit] at h
  obtain ⟨found, hfound, hid⟩ := DeleteRecord_target E cfg 0 zone _ i h
  rw [(FindDNSRecord_of_listing E cfg 0 zone _ items hfetch).1] at hfound
  injection hfound with hfound
  obtain ⟨pre, post, hitems, hm, _⟩ := (findLoop_ok_iff _ _ _).1 hfound
  exact ⟨found, by simp [hitems], hid, (specMatches_cleanUpPattern sub key found).1 hm⟩

theorem Present_of_create_error (E : Env) (cfg : Config) (fqdn key zone sub : String)
    (err : GoError) (hsplit : splitDomain fqdn = .ret (zone, sub))
    (hcreate : (CreateRecord E cfg 0 zone
      { Type_ := "TXT", Name := sub, Content := key, Ttl := 600, Id := 0 }).out =
        .ret (some err)) :
    (Present E (.ok cfg) fqdn key).out =
      .panicked "errors: *target must be interface or implement error" := by
  simp [Present, hsplit, hcreate, errorsAs, AsTarget.implementsError]

/-! ## splitDomain -/

/-- C7: `splitDomain` returns the last two labels as the zone root and the remaining labels as
the record name. For a domain that, after one trailing `.` is removed, is the dot-joined list of
dot-free labels `pre ++ [a, b]`, it returns `(a.b, join pre)`; the record name is empty when
there are exactly two labels; and `_acme-challenge.example.com.` splits into `example.com`
and `_acme-challenge`. -/
theorem splitDomain_last_two_labels :
    (∀ (domain : String) (pre : List String) (a b : String),
      (∀ l ∈ pre ++ [a, b], '.' ∉ l.data) →
      stringsTrimSuffix domain "." = stringsJoin (pre ++ [a, b]) "." →
      splitDomain domain = .ret (a ++ "." ++ b, stringsJoin pre ".")) ∧
    (∀ (domain a b : String), '.' ∉ a.data → '.' ∉ b.data →
      stringsTrimSuffix domain "." = a ++ "." ++ b →
      splitDomain domain = .ret (a ++ "." ++ b, "")) ∧
    splitDomain "_acme-challenge.example.com." = .ret ("example.com", "_acme-challenge") := by
  refine ⟨splitDomain_of_labels, ?_, by decide⟩
  intro domain a b ha hb hdom
  have h := splitDomain_of_labels domain [] a b
    (by
      intro l hl
      simp only [List.nil_append, List.mem_cons, List.mem_singleton, List.not_mem_nil,
        or_false] at hl
      rcases hl with h | h <;> rw [h] <;> assumption)
    (by simpa [stringsJoin] using hdom)
  simpa [stringsJoin] using h

/-- Witness of C7: a four-label domain without trailing dot, and a two-label domain with one. -/
theorem splitDomain_last_two_labels_witness :
    splitDomain "a.b.example.org" = .ret ("example" ++ "." ++ "org", stringsJoin ["a", "b"] ".") ∧
    splitDomain "example.org." = .ret ("example" ++ "." ++ "org", "") :=
  ⟨splitDomain_last_two_labels.1 "a.b.example.org" ["a", "b"] "example" "org"
      (by decide) (by decide),
    splitDomain_last_two_labels.2.1 "example.org." "example" "org"
      (by decide) (by decide) (by decide)⟩

/-! ## FindDNSRecord -/

/-- C3: on a successfully fetched listing `FindDNSRecord` is the reference lookup of the
specification: it returns the first record, in listing order, whose name and type equal the
pattern's and whose content, id and ttl equal the pattern's where the pattern sets them; when
no record matches it returns a not-found error whose `Item` is the pattern and whose message
list holds one message; with an all-wildcard pattern the result is the first record whose
name and type match. -/
theorem FindDNSRecord_first_match (E : Env) (config : Config) (clk : Nat) (domainName : String)
    (p : DnsRecord) (items : List DnsRecord)
    (hfetch : (GetDNSRecords E config clk domainName).out = .ret (.ok { Items := items })) :
    (FindDNSRecord E config clk domainName p).out = .ret (specFindRecord items p) ∧
    (∀ r, (FindDNSRecord E config clk domainName p).out = .ret (.ok r) ↔
      ∃ pre post, items = pre ++ r :: post ∧ specMatches p r ∧ ∀ x ∈ pre, ¬ specMatches p x) ∧
    ((∀ x ∈ items, ¬ specMatches p x) →
      (FindDNSRecord E config clk domainName p).out = .ret (.error (.websupport
        { Item := p, Status := "", Errors := { Content := [notFoundMessage p] } }))) ∧
    (p.Content = "" → p.Id = 0 → p.Ttl = 0 →
      ∀ r, (FindDNSRecord E config clk domainName p).out = .ret (.ok r) ↔
        ∃ pre post, items = pre ++ r :: post ∧ (r.Name = p.Name ∧ r.Type_ = p.Type_) ∧
          ∀ x ∈ pre, ¬ (x.Name = p.Name ∧ x.Type_ = p.Type_)) := by
  have hout := (FindDNSRecord_of_listing E config clk domainName p items hfetch).1
  have hiff : ∀ r, (FindDNSRecord E config clk domainName p).out = .ret (.ok r) ↔
      ∃ pre post, items = pre ++ r :: post ∧ specMatches p r ∧ ∀ x ∈ pre, ¬ specMatches p x := by
    intro r
    rw [hout, ← findLoop_ok_iff]
    constructor
    · intro h; injection h
    · intro h; rw [h]
  refine ⟨by rw [hout, findLoop_eq_spec], hiff, ?_, ?_⟩
  · intro h
    rw [hout, findLoop_not_found p items h]
  · intro hc hi ht r
    have hw : ∀ x, specMatches p x ↔ (x.Name = p.Name ∧ x.Type_ = p.Type_) := by
      intro x
      simp [specMatches, hc, hi, ht]
    rw [hiff]
    simp only [hw]

/-- Witness of C3: the listing of two TXT records fetched from the provider, looked up with
an all-wildcard pattern. -/
theorem FindDNSRecord_first_match_witness :
    (FindDNSRecord twoRecordsEnv exampleConfig 0 "example.com"
      { Type_ := "TXT", Name := "_acme-challenge", Content := "", Ttl := 0, Id := 0 }).out =
      .ret (specFindRecord twoRecords
        { Type_ := "TXT", Name := "_acme-challenge", Content := "", Ttl := 0, Id := 0 }) :=
  (FindDNSRecord_first_match twoRecordsEnv exampleConfig 0 "example.com"
    { Type_ := "TXT", Name := "_acme-challenge", Content := "", Ttl := 0, Id := 0 }
    twoRecords rfl).1

/-! ## secretSignature -/

/-- C9: for a URL that parses, `secretSignature` at a clock reading of Unix second `t` is the
lowercase hexadecimal rendering of the 20-byte HMAC-SHA1 of `<method> <url-path> <t>` under
the secret: 40 characters, each in `0-9a-f`; it depends on the URL only through its path and
on the clock only through the Unix second. -/
theorem secretSignature_deterministic_hex (E : Env) (now : Time)
    (method fullUrl secret path : String) (hurl : E.urlPath fullUrl = .ok path) :
    secretSignature E now method fullUrl secret =
      .ok (sprintX (hmacSha1 (utf8Bytes secret)
        (utf8Bytes (method ++ " " ++ path ++ " " ++ sprintD now.Unix)))) ∧
    (hmacSha1 (utf8Bytes secret)
      (utf8Bytes (method ++ " " ++ path ++ " " ++ sprintD now.Unix))).length = 20 ∧
    (∀ sig, secretSignature E now method fullUrl secret = .ok sig →
      sig.length = 40 ∧ ∀ c ∈ sig.data, c ∈ "0123456789abcdef".data) ∧
    (∀ (now' : Time) (fullUrl' : String), now'.Unix = now.Unix →
      E.urlPath fullUrl' = .ok path →
      secretSignature E now' method fullUrl' secret =
        secretSignature E now method fullUrl secret) := by
  have hsig : secretSignature E now method fullUrl secret =
      .ok (sprintX (hmacSha1 (utf8Bytes secret)
        (utf8Bytes (method ++ " " ++ path ++ " " ++ sprintD now.Unix)))) := by
    simp [secretSignature, hurl, signedMessage]
  refine ⟨hsig, hmacSha1_length _ _, ?_, ?_⟩
  · intro sig h
    rw [hsig] at h
    injection h with h
    subst h
    exact ⟨by rw [sprintX_length, hmacSha1_length], sprintX_chars _⟩
  · intro now' fullUrl' hnow hurl'
    simp [secretSignature, hurl, hurl', hnow]

/-- Witness of C9: two URLs of the same path, one with a query string and another host. -/
theorem secretSignature_deterministic_hex_witness :
    secretSignature (stdEnv (tickingClock 0) (provider "" noContent))
        { unix := 1700000000, nsec := 5, zoneOffset := 0 } "GET"
        "https://other.example/v1/user/self/zone/example.com/record?page=2" "secret" =
      secretSignature (stdEnv (tickingClock 0) (provider "" noContent))
        { unix := 1700000000, nsec := 0, zoneOffset := 3600 } "GET"
        "https://rest.websupport.sk/v1/user/self/zone/example.com/record" "secret" :=
  (secretSignature_deterministic_hex (stdEnv (tickingClock 0) (provider "" noContent))
    { unix := 1700000000, nsec := 0, zoneOffset := 3600 } "GET"
    "https://rest.websupport.sk/v1/user/self/zone/example.com/record" "secret"
    "/v1/user/self/zone/example.com/record" rfl).2.2.2
    { unix := 1700000000, nsec := 5, zoneOffset := 0 }
    "https://other.example/v1/user/self/zone/example.com/record?page=2" rfl rfl

/-! ## CleanUp -/

/-- C1, the code at the failing input: on the zone of the two records `AAA` (id 1) and `BBB`
(id 2), `CleanUp` with the empty key sends the GET of the listing and then a DELETE for
record 1, whose content is `AAA`; no listed record with that id has the content `""` of the
key. The empty content of the search pattern is a wildcard in `FindDNSRecord`, and `CleanUp`
passes the key into it unchecked, against its own comment that only the record with the same
key is cleaned up. -/
theorem CleanUp_empty_token_deletes_other_content :
    splitDomain "_acme-challenge.example.com." = .ret ("example.com", "_acme-challenge") ∧
    (GetDNSRecords twoRecordsEnv exampleConfig 0 "example.com").out =
      .ret (.ok { Items := twoRecords }) ∧
    issuesDelete (CleanUp twoRecordsEnv (.ok exampleConfig) "_acme-challenge.example.com." "")
      "example.com" 1 ∧
    (¬ ∃ r ∈ twoRecords, r.Id = 1 ∧ r.Name = "_acme-challenge" ∧ r.Type_ = "TXT" ∧
        r.Content = "") ∧
    (CleanUp twoRecordsEnv (.ok exampleConfig) "_acme-challenge.example.com." "").sent.map
      (fun req => (req.Method, req.URL)) =
      [("GET", "https://rest.websupport.sk/v1/user/self/zone/example.com/record"),
        ("DELETE", "https://rest.websupport.sk/v1/user/self/zone/example.com/record/1")] := by
  refine ⟨by decide, rfl, by decide, by decide, by decide⟩

/-- For a non-empty key the comment of `CleanUp` holds on the code: every DELETE for a record
of the zone that `CleanUp` sends targets the id of a listed record whose name is the record
name split from the fqdn, whose type is `TXT` and whose content equals the key; with the two
records `AAA` and `BBB` of distinct ids, the key `AAA` never leads to a DELETE for the id of
the `BBB` record. -/
theorem CleanUp_nonempty_key_target :
    (∀ (E : Env) (cfg : Config) (fqdn token zone sub : String) (items : List DnsRecord)
        (i : Int),
      token ≠ "" →
      splitDomain fqdn = .ret (zone, sub) →
      (GetDNSRecords E cfg 0 zone).out = .ret (.ok { Items := items }) →
      issuesDelete (CleanUp E (.ok cfg) fqdn token) zone i →
      ∃ r ∈ items, r.Id = i ∧ r.Name = sub ∧ r.Type_ = "TXT" ∧ r.Content = token) ∧
    (∀ (E : Env) (cfg : Config) (fqdn zone sub : String) (ra rb : DnsRecord)
        (items : List DnsRecord),
      splitDomain fqdn = .ret (zone, sub) →
      (GetDNSRecords E cfg 0 zone).out = .ret (.ok { Items := items }) →
      (items = [ra, rb] ∨ items = [rb, ra]) →
      ra.Name = sub → rb.Name = sub → ra.Type_ = "TXT" → rb.Type_ = "TXT" →
      ra.Content = "AAA" → rb.Content = "BBB" → ra.Id ≠ rb.Id →
      (∀ i, issuesDelete (CleanUp E (.ok cfg) fqdn "AAA") zone i → i = ra.Id) ∧
      ¬ issuesDelete (CleanUp E (.ok cfg) fqdn "AAA") zone rb.Id ∧
      (ra.Ttl = 600 →
        (∃ req, NewRequest E cfg 2 "DELETE" (recordUrl zone ra.Id) "" = .ok req) →
        issuesDelete (CleanUp E (.ok cfg) fqdn "AAA") zone ra.Id)) := by
  constructor
  · intro E cfg fqdn token zone sub items i htok hsplit hfetch h
    obtain ⟨r, hr, hid, hname, htype, hcontent, _⟩ :=
      CleanUp_target E cfg fqdn token zone sub items i hsplit hfetch h
    exact ⟨r, hr, hid, hname, htype, hcontent.resolve_left htok⟩
  · intro E cfg fqdn zone sub ra rb items hsplit hfetch hitems hna hnb hta htb hca hcb hne
    have hAB : ("AAA" : String) ≠ "BBB" := by decide
    have hA : ("AAA" : String) ≠ "" := by decide
    have htarget : ∀ i, issuesDelete (CleanUp E (.ok cfg) fqdn "AAA") zone i → i = ra.Id := by
      intro i h
      obtain ⟨r, hr, hid, _, _, hcontent, _⟩ :=
        CleanUp_target E cfg fqdn "AAA" zone sub items i hsplit hfetch h
      have hc : r.Content = "AAA" := hcontent.resolve_left hA
      have hrb : r ≠ rb := fun hEq => hAB (by rw [← hc, hEq, hcb])
      have hra : r = ra := by
        rcases hitems with h1 | h1 <;> rw [h1] at hr <;> simp at hr <;>
          rcases hr with h2 | h2
        · exact h2
        · exact absurd h2 hrb
        · exact absurd h2 hrb
        · exact h2
      rw [← hid, hra]
    refine ⟨htarget, fun h => hne (htarget _ h).symm, ?_⟩
    intro httl ⟨req, hreq⟩
    have hma : specMatches (cleanUpPattern sub "AAA") ra :=
      (specMatches_cleanUpPattern sub "AAA" ra).2 ⟨hna, hta, Or.inr hca, httl⟩
    have hmb : ¬ specMatches (cleanUpPattern sub "AAA") rb := by
      intro hm
      have := ((specMatches_cleanUpPattern sub "AAA" rb).1 hm).2.2.1.resolve_left hA
      exact hAB (by rw [← this, hcb])
    have hfind : findLoop (cleanUpPattern sub "AAA") items = .ok ra := by
      rw [findLoop_ok_iff]
      rcases hitems with h1 | h1
      · exact ⟨[], [rb], by simp [h1], hma, by simp⟩
      · exact ⟨[rb], [], by simp [h1], hma, by simpa using hmb⟩
    have hfound : (FindDNSRecord E cfg 0 zone (cleanUpPattern sub "AAA")).out =
        .ret (.ok ra) := by
      rw [(FindDNSRecord_of_listing E cfg 0 zone _ items hfetch).1, hfind]
    rw [CleanUp_eq_DeleteRecord E cfg fqdn "AAA" zone sub hsplit]
    exact DeleteRecord_sends E cfg 0 zone _ ra req hfound hreq

/-- The two-record zone, cleaned up with the key `AAA`. -/
theorem CleanUp_nonempty_key_target_example :
    (∃ r ∈ twoRecords, r.Id = 1 ∧ r.Name = "_acme-challenge" ∧ r.Type_ = "TXT" ∧
      r.Content = "AAA") ∧
    ¬ issuesDelete (CleanUp twoRecordsEnv (.ok exampleConfig) "_acme-challenge.example.com." "AAA")
      "example.com" 2 :=
  ⟨CleanUp_nonempty_key_target.1 twoRecordsEnv exampleConfig
      "_acme-challenge.example.com." "AAA" "example.com" "_acme-challenge" twoRecords 1
      (by decide) (by decide) rfl (by decide),
    (CleanUp_nonempty_key_target.2 twoRecordsEnv exampleConfig
      "_acme-challenge.example.com." "example.com" "_acme-challenge"
      { Type_ := "TXT", Name := "_acme-challenge", Content := "AAA", Ttl := 600, Id := 1 }
      { Type_ := "TXT", Name := "_acme-challenge", Content := "BBB", Ttl := 600, Id := 2 }
      twoRecords (by decide) rfl (Or.inl rfl) rfl rfl rfl rfl rfl rfl (by decide)).2.1⟩

/-- C4 as stated fails: `CleanUp` does not leave the ttl as a wildcard. On a zone whose TXT
record of the split name and content `AAA` has ttl 300, `CleanUp` with token `AAA` sends the
GET of the listing and no DELETE, and returns the not-found error of the lookup. -/
theorem CleanUp_ttl_is_not_wildcard :
    splitDomain "_acme-challenge.example.com." = .ret ("example.com", "_acme-challenge") ∧
    (GetDNSRecords ttl300Env exampleConfig 0 "example.com").out =
      .ret (.ok { Items :=
        [{ Type_ := "TXT", Name := "_acme-challenge", Content := "AAA", Ttl := 300, Id := 7 }] }) ∧
    ¬ issuesDelete (CleanUp ttl300Env (.ok exampleConfig) "_acme-challenge.example.com." "AAA")
      "example.com" 7 ∧
    (CleanUp ttl300Env (.ok exampleConfig) "_acme-challenge.example.com." "AAA").sent.map
      (fun req => req.Method) = ["GET"] ∧
    (CleanUp ttl300Env (.ok exampleConfig) "_acme-challenge.example.com." "AAA").out =
      .ret (some (.websupport
        { Item := { Type_ := "TXT", Name := "_acme-challenge", Content := "AAA", Ttl := 600,
                    Id := 0 },
          Status := "",
          Errors :=
            { Content := ["no such domain '_acme-challenge' with key 'AAA' found"] } })) := by
  refine ⟨by decide, rfl, by decide, by decide, by decide⟩

/-- C4, amended: `CleanUp` searches with the pattern {name: record name, type: TXT, content:
token, ttl: 600} and leaves only the id as a wildcard. For a non-empty token and a fetched
listing that contains a TXT record `r` of the split name with content equal to the token and
ttl 600, whatever its id, the lookup does not end in the not-found error: it resolves a listed
TXT record of that name, that content and ttl 600, the first one listed, which is `r` itself
when no such record is listed before `r` (so when `r` is the only one); `CleanUp` goes on to
the DELETE request for the id of the resolved record, every DELETE it sends has the URL of
that id, and it is sent once the request for that id can be built. -/
theorem CleanUp_resolves_ttl600_record (E : Env) (cfg : Config) (fqdn token zone sub : String)
    (items : List DnsRecord) (r : DnsRecord)
    (hsplit : splitDomain fqdn = .ret (zone, sub))
    (hfetch : (GetDNSRecords E cfg 0 zone).out = .ret (.ok { Items := items }))
    (htok : token ≠ "")
    (hr : r ∈ items) (htype : r.Type_ = "TXT") (hname : r.Name = sub)
    (hcontent : r.Content = token) (httl : r.Ttl = 600) :
    ∃ found, (FindDNSRecord E cfg 0 zone (cleanUpPattern sub token)).out = .ret (.ok found) ∧
      found ∈ items ∧
      found.Name = sub ∧ found.Type_ = "TXT" ∧ found.Content = token ∧ found.Ttl = 600 ∧
      (∃ pre post, items = pre ++ found :: post ∧
        ∀ x ∈ pre, ¬ (x.Name = sub ∧ x.Type_ = "TXT" ∧ x.Content = token ∧ x.Ttl = 600)) ∧
      ((∃ pre post, items = pre ++ r :: post ∧
          ∀ x ∈ pre, ¬ (x.Name = sub ∧ x.Type_ = "TXT" ∧ x.Content = token ∧ x.Ttl = 600)) →
        found = r) ∧
      ((∀ x ∈ items, x.Name = sub → x.Type_ = "TXT" → x.Content = token → x.Ttl = 600 →
          x = r) → found = r) ∧
      (CleanUp E (.ok cfg) fqdn token).sent =
        (GetDNSRecords E cfg 0 zone).sent ++
          (Request E cfg 2 "DELETE" (recordUrl zone found.Id) "").sent ∧
      (∀ req ∈ (CleanUp E (.ok cfg) fqdn token).sent, req.Method = "DELETE" →
        req.URL = recordUrl zone found.Id) ∧
      ((∃ req, NewRequest E cfg 2 "DELETE" (recordUrl zone found.Id) "" = .ok req) →
        issuesDelete (CleanUp E (.ok cfg) fqdn token) zone found.Id) := by
  have hiff : ∀ x : DnsRecord, specMatches (cleanUpPattern sub token) x ↔
      (x.Name = sub ∧ x.Type_ = "TXT" ∧ x.Content = token ∧ x.Ttl = 600) := by
    intro x
    rw [specMatches_cleanUpPattern]
    constructor
    · rintro ⟨h1, h2, h3, h4⟩
      exact ⟨h1, h2, h3.resolve_left htok, h4⟩
    · rintro ⟨h1, h2, h3, h4⟩
      exact ⟨h1, h2, Or.inr h3, h4⟩
  have hm : specMatches (cleanUpPattern sub token) r := (hiff r).2 ⟨hname, htype, hcontent, httl⟩
  obtain ⟨found, hfind⟩ := findLoop_found_of_mem _ items r hr hm
  obtain ⟨pre, post, hitems, hmf, hpre⟩ := (findLoop_ok_iff _ _ _).1 hfind
  have hmf' := (hiff found).1 hmf
  have hmem : found ∈ items := by simp [hitems]
  have hfound : (FindDNSRecord E cfg 0 zone (cleanUpPattern sub token)).out =
      .ret (.ok found) := by
    rw [(FindDNSRecord_of_listing E cfg 0 zone _ items hfetch).1, hfind]
  have hsent : (CleanUp E (.ok cfg) fqdn token).sent =
      (GetDNSRecords E cfg 0 zone).sent ++
        (Request E cfg 2 "DELETE" (recordUrl zone found.Id) "").sent := by
    rw [CleanUp_eq_DeleteRecord E cfg fqdn token zone sub hsplit,
      DeleteRecord_sent_of_found E cfg 0 zone _ found hfound, FindDNSRecord_sent]
  refine ⟨found, hfound, hmem, hmf'.1, hmf'.2.1, hmf'.2.2.1, hmf'.2.2.2,
    ⟨pre, post, hitems, fun x hx hmx => hpre x hx ((hiff x).2 hmx)⟩, ?_, ?_, hsent, ?_, ?_⟩
  · rintro ⟨pre', post', hitems', hpre'⟩
    have hfind' : findLoop (cleanUpPattern sub token) items = .ok r :=
      (findLoop_ok_iff _ _ _).2
        ⟨pre', post', hitems', hm, fun x hx hmx => hpre' x hx ((hiff x).1 hmx)⟩
    rw [hfind] at hfind'
    injection hfind'
  · intro huniq
    exact huniq found hmem hmf'.1 hmf'.2.1 hmf'.2.2.1 hmf'.2.2.2
  · intro req hreq hmethod
    rw [hsent] at hreq
    rcases List.mem_append.1 hreq with h1 | h1
    · have hget := GetDNSRecords_sent E cfg 0 zone req h1
      rw [hget] at hmethod
      exact absurd hmethod (by decide)
    · exact (Request_sent E cfg 2 "DELETE" _ "" req h1).2
  · rintro ⟨req, hreq⟩
    rw [CleanUp_eq_DeleteRecord E cfg fqdn token zone sub hsplit]
    exact DeleteRecord_sends E cfg 0 zone _ found req hfound hreq

/-- Witness of C4: the two-record zone, where the `BBB` record has ttl 600 and id 2 and is the
only record of content `BBB`; `CleanUp` with token `BBB` resolves it and sends DELETE for
id 2. -/
theorem CleanUp_resolves_ttl600_record_witness :
    (FindDNSRecord twoRecordsEnv exampleConfig 0 "example.com"
      (cleanUpPattern "_acme-challenge" "BBB")).out =
        .ret (.ok { Type_ := "TXT", Name := "_acme-challenge", Content := "BBB", Ttl := 600,
                    Id := 2 }) ∧
    issuesDelete
      (CleanUp twoRecordsEnv (.ok exampleConfig) "_acme-challenge.example.com." "BBB")
      "example.com" 2 := by
  obtain ⟨found, hfound, _, _, _, _, _, _, _, huniq, _, _, hsend⟩ :=
    CleanUp_resolves_ttl600_record twoRecordsEnv exampleConfig "_acme-challenge.example.com."
      "BBB" "example.com" "_acme-challenge" twoRecords
      { Type_ := "TXT", Name := "_acme-challenge", Content := "BBB", Ttl := 600, Id := 2 }
      (by decide) rfl (by decide) (by decide) rfl rfl rfl rfl
  have hEq : found =
      { Type_ := "TXT", Name := "_acme-challenge", Content := "BBB", Ttl := 600, Id := 2 } :=
    huniq (by decide)
  subst hEq
  exact ⟨hfound, hsend ⟨_, rfl⟩⟩
/-! ## Present -/

/-- C2, the code at the failing input: the provider answers the create request with
`400 Bad Request` and a duplicate message, `CreateRecord` returns the `*WebsupportError`, and
`Present` panics inside `errors.As`, whose target `&websupport.WebsupportError{}` points to a
struct type that does not implement `error`; it does not return nil. -/
theorem Present_panics_on_provider_error :
    (CreateRecord duplicateEnv exampleConfig 0 "example.com"
      { Type_ := "TXT", Name := "_acme-challenge", Content := "AAA", Ttl := 600, Id := 0 }).out =
      .ret (some (.websupport
        { Item := { Type_ := "TXT", Name := "_acme-challenge", Content := "AAA", Ttl := 600,
                    Id := 0 },
          Status := "400 Bad Request",
          Errors := { Content := ["The record already exists."] } })) ∧
    (Present duplicateEnv (.ok exampleConfig) "_acme-challenge.example.com." "AAA").out =
      .panicked "errors: *target must be interface or implement error" := by
  refine ⟨by decide, by decide⟩

/-! ## Request -/

/-- C5: when the round trip yields a response, `Request` returns, for a status code of 400 or
more, no response and a `WebsupportError` whose `Status` is the status line of the response
and whose item and message list are those decoded from the body, and for a status code below
400 the response itself (with the error of the round trip). A 503 response whose body decodes
to the message list `["try later"]` yields an error whose `Error()` is `try later`. -/
theorem Request_normalises_provider_errors (E : Env) (config : Config) (clk : Nat)
    (method url data : String) (req : HttpRequest) (resp : HttpResponse) (err : Option GoError)
    (hnew : NewRequest E config clk method url data = .ok req)
    (hdo : E.Do req = (some resp, err)) :
    (resp.StatusCode ≥ 400 →
      (Request E config clk method url data).out =
        .ret (none, some (.websupport
          { Item := (E.jsonDecodeError resp.Body).Item, Status := resp.Status,
            Errors := { Content := (E.jsonDecodeError resp.Body).Errors.Content } }))) ∧
    (resp.StatusCode < 400 →
      (Request E config clk method url data).out = .ret (some resp, err)) ∧
    (resp.StatusCode = 503 → resp.Body = serviceUnavailableBody →
      (E.jsonDecodeError serviceUnavailableBody).Errors.Content = ["try later"] →
      ∃ e, (Request E config clk method url data).out = .ret (none, some (.websupport e)) ∧
        e.Error = .ret "try later") := by
  have h := Request_of_response E config clk method url data req resp err hnew hdo
  refine ⟨?_, ?_, ?_⟩
  · intro hs
    rw [h, if_pos hs]
  · intro hs
    rw [h, if_neg (by omega)]
  · intro hs hbody hdec
    refine ⟨{ E.jsonDecodeError resp.Body with Status := resp.Status }, ?_, ?_⟩
    · rw [h, if_pos (by omega)]
    · simp [WebsupportError.Error, hbody, hdec]

/-- Witness of C5: the 503 example of the specification, decoded by the JSON model. -/
theorem Request_normalises_provider_errors_witness :
    ∃ e, (Request serviceUnavailableEnv exampleConfig 0 "GET"
        "https://rest.websupport.sk/v1/user/self/zone/example.com/record" "").out =
          .ret (none, some (.websupport e)) ∧ e.Error = .ret "try later" :=
  (Request_normalises_provider_errors serviceUnavailableEnv exampleConfig 0 "GET"
    "https://rest.websupport.sk/v1/user/self/zone/example.com/record" ""
    { Method := "GET", URL := "https://rest.websupport.sk/v1/user/self/zone/example.com/record",
      Body := "", ContentType := "application/json", Accept := "application/json",
      Date := (tickingClock 1700000000 0).FormatRFC3339, AuthUser := "key",
      AuthPassword := sprintX (hmacSha1 (utf8Bytes "secret")
        (utf8Bytes (signedMessage "GET" "/v1/user/self/zone/example.com/record"
          (tickingClock 1700000000 1).Unix))) }
    { StatusCode := 503, Status := "503 Service Unavailable", Body := serviceUnavailableBody }
    none rfl rfl).2.2 rfl rfl (by decide)

/-- C6, the code at the failing input: the round trip fails without a response (a DNS
resolution failure) and `Request` panics on `resp.StatusCode`, a nil pointer dereference; it
does not return the transport error. -/
theorem Request_panics_on_transport_failure :
    (∀ req, unreachableEnv.Do req =
      (none, some (.other "dial tcp: lookup rest.websupport.sk: no such host"))) ∧
    (Request unreachableEnv exampleConfig 0 "GET"
      "https://rest.websupport.sk/v1/user/self/zone/example.com/record" "").out =
      .panicked "runtime error: invalid memory address or nil pointer dereference" := by
  refine ⟨fun _ => rfl, by decide⟩

/-- C10, the code at the failing input: from a `502 Bad Gateway` response with an empty body
`Request` builds a `WebsupportError` with an empty message list, and `Error()` on it panics
with an index out of range. -/
theorem Request_error_with_empty_messages :
    (Request badGatewayEnv exampleConfig 0 "GET"
      "https://rest.websupport.sk/v1/user/self/zone/example.com/record" "").out =
      .ret (none, some (.websupport
        { Item := { Type_ := "", Name := "", Content := "", Ttl := 0, Id := 0 },
          Status := "502 Bad Gateway", Errors := { Content := [] } })) ∧
    WebsupportError.Error
      { Item := { Type_ := "", Name := "", Content := "", Ttl := 0, Id := 0 },
        Status := "502 Bad Gateway", Errors := { Content := [] } } =
      .panicked "runtime error: index out of range [0] with length 0" := by
  refine ⟨by decide, by decide⟩

/-! ## NewRequest -/

/-- C8, the code at the failing input: `NewRequest` reads the clock once for the `Date`
header and `secretSignature` reads it again; when the second changes in between, the header
says second 59 while the signed string carries the Unix timestamp 60. -/
theorem NewRequest_date_differs_from_signed_second :
    (boundaryEnv.now 0).Unix = 59 ∧ (boundaryEnv.now 1).Unix = 60 ∧
    ∃ req, NewRequest boundaryEnv exampleConfig 0 "GET"
        "https://rest.websupport.sk/v1/user/self/zone/example.com/record" "" = .ok req ∧
      req.Date = "1970-01-01T00:00:59Z" ∧
      req.AuthPassword = sprintX (hmacSha1 (utf8Bytes "secret")
        (utf8Bytes "GET /v1/user/self/zone/example.com/record 60")) := by
  refine ⟨rfl, rfl, _, rfl, by decide, ?_⟩
  show sprintX (hmacSha1 (utf8Bytes "secret") (utf8Bytes (signedMessage "GET"
    "/v1/user/self/zone/example.com/record" 60))) = _
  have h : signedMessage "GET" "/v1/user/self/zone/example.com/record" 60 =
      "GET /v1/user/self/zone/example.com/record 60" := by decide
  rw [h]

end Websupport
